import Mathlib

/-!
Verification of the `chant` front-end's multi-track field-reconciliation and
edit-commit model. The definitions below are a shallow embedding of the
TypeScript source: `TrackEditorPanel.tsx` (field reconciler, commit builder,
panel state), `validators.ts` (field validator registry) and `useCoverArt.ts`
(deduplicating cover-art lookup cache). JavaScript `string | null` values
become `Option String`, falsiness of strings (empty string) and of numbers
(`0`, `NaN`) is modelled explicitly at the places the source relies on it,
and React state updates become explicit state-passing functions.
-/

set_option maxHeartbeats 1000000

-- ── Field Reconciler (TrackEditorPanel.tsx, FieldState / computeField) ──

/-- Tagged field state: `uniform(value)` (all records agree), `divergent(values)`
(one projected entry per record, in order), or `edited(value)` (explicit user
input). Mirrors the `FieldState<T>` union type of the source. -/
inductive FieldState (T : Type) where
  | uniform (value : T)
  | divergent (values : List T)
  | edited (value : T)
deriving DecidableEq, Repr

/-- True exactly on the `edited` constructor (the source's `fs.kind === "edited"`). -/
def editedB {T : Type} : FieldState T → Bool
  | .edited _ => true
  | _ => false

/-- Field reconciler. Mirrors `computeField(tracks, extract, eq)`:
projects each record, then returns `uniform(values[0])` when every projected
value is `eq` to the first, `divergent(values)` otherwise. The JavaScript
`values[0]` on an empty array is `undefined`; we use the `Inhabited` default
in that (never claim-relevant) case. -/
def computeField {R T : Type} [Inhabited T] (records : List R)
    (extract : R → T) (eq : T → T → Bool) : FieldState T :=
  let values := records.map extract
  if values.all (fun v => eq v (values.headD default)) then
    .uniform (values.headD default)
  else
    .divergent values

/-- Mirrors `displayValue(fs)`: the value for uniform/edited, `null` for divergent. -/
def displayValue {T : Type} : FieldState T → Option T
  | .uniform v => some v
  | .edited v => some v
  | .divergent _ => none

-- ── Record model (TrackRow fields consumed by buildEditState) ──

/-- The fields of the backend's `TrackRow` that `buildEditState` reads.
JavaScript `T | null` fields become `Option T`. -/
structure TrackRow where
  id : Int
  title : String
  artistName : Option String
  albumTitle : Option String
  albumArtist : Option String
  composer : Option String
  year : Option Int
  genre : Option String
  trackNumber : Option Int
  trackTotal : Option Int
  discNumber : Option Int
  discTotal : Option Int
  bpm : Option Int
  comment : Option String
  commentLang : Option String
  lyrics : Option String
  lyricsLang : Option String
deriving DecidableEq, Repr

/-- The `EditState` record: one `FieldState` per editable field. String-typed
input fields hold `Option String` (`null` allowed), matching the source. -/
structure EditState where
  title : FieldState String
  artistNames : FieldState (List String)
  albumTitle : FieldState (Option String)
  albumArtist : FieldState (Option String)
  composer : FieldState (Option String)
  year : FieldState (Option String)
  genre : FieldState (Option String)
  trackNumber : FieldState (Option String)
  discNumber : FieldState (Option String)
  bpm : FieldState (Option String)
  comment : FieldState (Option String)
  commentLang : FieldState (Option String)
  lyrics : FieldState (Option String)
  lyricsLang : FieldState (Option String)
deriving DecidableEq, Repr

/-- Worker for `jsSplit`: scans the character list left to right, emitting a
segment at each non-overlapping occurrence of the separator, exactly as
JavaScript `String.prototype.split` does with a non-regex separator. The fuel
argument (always at least the list length plus one) only makes the recursion
structural; it is never exhausted for a non-empty separator. -/
def jsSplitGo (sep : List Char) : Nat → List Char → List Char → List (List Char)
  | 0, cs, acc => [acc.reverse ++ cs]
  | _ + 1, [], acc => [acc.reverse]
  | n + 1, c :: cs, acc =>
    if sep.isPrefixOf (c :: cs) then
      acc.reverse :: jsSplitGo sep n ((c :: cs).drop sep.length) []
    else
      jsSplitGo sep n cs (c :: acc)

/-- Model of JavaScript `s.split(sep)` for a non-empty literal separator:
splits at every non-overlapping occurrence, left to right, always returning
at least one (possibly empty) segment. -/
def jsSplit (s : String) (sep : String) : List String :=
  (jsSplitGo sep.data (s.data.length + 1) s.data []).map String.mk

/-- Model of JavaScript `s.trim()`: strips whitespace from both ends. -/
def jsTrim (s : String) : String :=
  String.mk (((s.data.dropWhile Char.isWhitespace).reverse.dropWhile Char.isWhitespace).reverse)

/-- Projection used for the multi-valued artist field: split the stored
string on the fixed delimiter, trim the segments, drop empty ones
(`t.artistName ? t.artistName.split(" / ").map(trim).filter(Boolean) : []`). -/
def splitArtistName (a : Option String) : List String :=
  match a with
  | none => []
  | some s =>
    if s = "" then []
    else ((jsSplit s " / ").map jsTrim).filter (fun seg => seg ≠ "")

/-- Projection for track / disc position: `null` numerator projects to `null`,
otherwise to the string form `N` or `N/Total` exactly as in the source. -/
def formatNumTotal (num : Option Int) (total : Option Int) : Option String :=
  match num with
  | none => none
  | some n =>
    match total with
    | some t => some (toString n ++ "/" ++ toString t)
    | none => some (toString n)

/-- Mirrors `buildEditState(tracks)`: reconciles every editable field of the
selected records via `computeField`. The artist field compares the join of
the split list (`a.join(",") === b.join(",")`); all other fields use `===`. -/
def buildEditState (tracks : List TrackRow) : EditState :=
  { title := computeField tracks (fun t => t.title) (fun a b => a == b)
    artistNames := computeField tracks (fun t => splitArtistName t.artistName)
      (fun a b => String.intercalate "," a == String.intercalate "," b)
    albumTitle := computeField tracks (fun t => t.albumTitle) (fun a b => a == b)
    albumArtist := computeField tracks (fun t => t.albumArtist) (fun a b => a == b)
    composer := computeField tracks (fun t => t.composer) (fun a b => a == b)
    year := computeField tracks (fun t => t.year.map toString) (fun a b => a == b)
    genre := computeField tracks (fun t => t.genre) (fun a b => a == b)
    trackNumber := computeField tracks (fun t => formatNumTotal t.trackNumber t.trackTotal)
      (fun a b => a == b)
    discNumber := computeField tracks (fun t => formatNumTotal t.discNumber t.discTotal)
      (fun a b => a == b)
    bpm := computeField tracks (fun t => t.bpm.map toString) (fun a b => a == b)
    comment := computeField tracks (fun t => t.comment) (fun a b => a == b)
    commentLang := computeField tracks (fun t => t.commentLang) (fun a b => a == b)
    lyrics := computeField tracks (fun t => t.lyrics) (fun a b => a == b)
    lyricsLang := computeField tracks (fun t => t.lyricsLang) (fun a b => a == b) }

-- ── JavaScript parseInt and parseTrackDisc ──

/-- Numeric value of a list of decimal digit characters. -/
def natOfDigits (cs : List Char) : Nat :=
  cs.foldl (fun n c => n * 10 + (c.toNat - ('0').toNat)) 0

/-- Model of JavaScript `parseInt(s)` (radix 10): skip leading whitespace,
read an optional sign, then the longest prefix of decimal digits; `none`
models `NaN` (no digits found). -/
def jsParseInt (s : String) : Option Int :=
  let t := s.data.dropWhile Char.isWhitespace
  let signed : Int × List Char :=
    match t with
    | '-' :: cs => (-1, cs)
    | '+' :: cs => (1, cs)
    | cs => (1, cs)
  let ds := signed.2.takeWhile (fun c => c.isDigit)
  if ds.isEmpty then none else some (signed.1 * (natOfDigits ds : Int))

/-- Applies JavaScript `x || null` to a parsed number: `0` and `NaN` are falsy
and collapse to `null`. -/
def numOrNull (o : Option Int) : Option Int :=
  match o with
  | some n => if n = 0 then none else some n
  | none => none

/-- Result of `parseTrackDisc`: the `{num, total}` pair. -/
structure NumTotal where
  num : Option Int
  total : Option Int
deriving DecidableEq, Repr

/-- Mirrors `parseTrackDisc(val)`: a falsy input (null or empty) gives both
`null`; otherwise the string is split on `/`, `num` is `parseInt(parts[0]) || null`
and `total` is `parts[1] ? parseInt(parts[1]) || null : null` (an absent or
empty denominator is falsy). -/
def parseTrackDisc (val : Option String) : NumTotal :=
  match val with
  | none => { num := none, total := none }
  | some v =>
    if v = "" then { num := none, total := none }
    else
      let parts := jsSplit v "/"
      { num := numOrNull (jsParseInt (parts.headD ""))
        total :=
          match parts[1]? with
          | some p => if p = "" then none else numOrNull (jsParseInt p)
          | none => none }

-- ── Validator registry (validators.ts) ──

/-- Test for the regex `^\d+$`: one or more decimal digits. -/
def reDigits (s : String) : Bool :=
  !s.data.isEmpty && s.data.all (fun c => c.isDigit)

/-- Test for the regex `^\d+(\/\d+)?$`: digits, optionally followed by a slash
and more digits. Implemented as the greedy anchored match the regex performs. -/
def reNumSlashNum (s : String) : Bool :=
  let ds := s.data.takeWhile (fun c => c.isDigit)
  let rest := s.data.dropWhile (fun c => c.isDigit)
  !ds.isEmpty &&
    (rest.isEmpty ||
      (rest.headD ' ' == '/' && !rest.tail.isEmpty &&
        rest.tail.all (fun c => c.isDigit)))

/-- Test for the regex `^[a-z]{3}$`: exactly three lowercase ASCII letters. -/
def reLang3 (s : String) : Bool :=
  s.data.length == 3 && s.data.all (fun c => 'a' ≤ c && c ≤ 'z')

/-- Test for the regex `^[A-G][b#]?m?$` (musical key). -/
def reMusicalKey (s : String) : Bool :=
  match s.data with
  | [a] => 'A' ≤ a && a ≤ 'G'
  | [a, b] => ('A' ≤ a && a ≤ 'G') && (b == 'b' || b == '#' || b == 'm')
  | [a, b, c] => ('A' ≤ a && a ≤ 'G') && (b == 'b' || b == '#') && c == 'm'
  | _ => false

/-- Test for the regex `^[A-Z]{2}[A-Z0-9]{3}\d{7}$` (ISRC). -/
def reIsrc (s : String) : Bool :=
  s.data.length == 12 &&
    ((s.data.take 2).all (fun c => 'A' ≤ c && c ≤ 'Z') &&
      ((s.data.drop 2).take 3).all (fun c => ('A' ≤ c && c ≤ 'Z') || c.isDigit) &&
      (s.data.drop 5).all (fun c => c.isDigit))

/-- The `bpm` validator: `/^\d+$/.test(v) ? null : "Must be a non-negative integer"`. -/
def validatorBpm (v : String) : Option String :=
  if reDigits v then none else some "Must be a non-negative integer"

/-- The `year` validator: `/^\d{4}$/.test(v) && +v >= 1000 && +v <= 2099`. -/
def validatorYear (v : String) : Option String :=
  if (v.data.length == 4 && v.data.all (fun c => c.isDigit)) &&
      (1000 ≤ natOfDigits v.data && natOfDigits v.data ≤ 2099) then none
  else some "4-digit year (1000-2099)"

/-- The `trackNumber` validator: `/^\d+(\/\d+)?$/`. -/
def validatorTrackNumber (v : String) : Option String :=
  if reNumSlashNum v then none else some "Must be N or N/Total"

/-- The `discNumber` validator: `/^\d+(\/\d+)?$/`. -/
def validatorDiscNumber (v : String) : Option String :=
  if reNumSlashNum v then none else some "Must be N or N/Total"

/-- The `commentLang` validator: `/^[a-z]{3}$/`. -/
def validatorCommentLang (v : String) : Option String :=
  if reLang3 v then none else some "3 lowercase letters (ISO 639-2)"

/-- The `lyricsLang` validator: `/^[a-z]{3}$/`. -/
def validatorLyricsLang (v : String) : Option String :=
  if reLang3 v then none else some "3 lowercase letters (ISO 639-2)"

/-- The `TKEY` extra-tag validator (musical key). -/
def validatorTKEY (v : String) : Option String :=
  if reMusicalKey v then none else some "Invalid musical key (e.g. Am, C#, Db)"

/-- The `TSRC` extra-tag validator (ISRC). -/
def validatorTSRC (v : String) : Option String :=
  if reIsrc v then none else some "Invalid ISRC"

/-- The `FIELD_VALIDATORS` registry: a partial map from field key to validator,
mirroring the `Record<string, Validator>` object of `validators.ts`. -/
def FIELD_VALIDATORS (key : String) : Option (String → Option String) :=
  if key = "bpm" then some validatorBpm
  else if key = "year" then some validatorYear
  else if key = "trackNumber" then some validatorTrackNumber
  else if key = "discNumber" then some validatorDiscNumber
  else if key = "commentLang" then some validatorCommentLang
  else if key = "lyricsLang" then some validatorLyricsLang
  else if key = "TKEY" then some validatorTKEY
  else if key = "TSRC" then some validatorTSRC
  else none

-- ── Commit Builder (the patch built inside save()) ──

/-- The outbound `TrackUpdateInput` patch. Each field is `none` when the key is
absent from the patch (the field was not edited) and `some pv` when the key is
present with value `pv`. For numeric keys the inner `Option Int` is the sent
value, with `none` standing for the JavaScript `null` sent for a cleared input
(an unparsable string would produce `NaN`, which is likewise modelled `none`;
validation prevents it from ever being sent). -/
structure TrackUpdateInput where
  title : Option (Option String) := none
  artistName : Option String := none
  albumTitle : Option String := none
  albumArtist : Option String := none
  composer : Option String := none
  genre : Option String := none
  year : Option (Option Int) := none
  bpm : Option (Option Int) := none
  comment : Option String := none
  commentLang : Option String := none
  lyrics : Option String := none
  lyricsLang : Option String := none
  trackNumber : Option (Option Int) := none
  trackTotal : Option (Option Int) := none
  discNumber : Option (Option Int) := none
  discTotal : Option (Option Int) := none
deriving DecidableEq, Repr

/-- JavaScript `v || null` on a string: empty string collapses to `null`. -/
def strOrNull (v : String) : Option String :=
  if v = "" then none else some v

/-- JavaScript `v ? parseInt(v) : null` on a `string | null` value. -/
def parseIntOrNull (o : Option String) : Option Int :=
  match o with
  | some s => if s = "" then none else jsParseInt s
  | none => none

/-- The patch construction block of `save()`: a key is included exactly when
the corresponding `FieldState` is `edited`, with the source's per-field
translation (empty title collapses to `null`; artist list re-joined with
`" / "`, empty list sent as `""`; `?? ""` for the plain text fields; numeric
fields parsed with empty mapping to `null`; track/disc positions split through
`parseTrackDisc` into a number key and a total key). -/
def buildPatch (es : EditState) : TrackUpdateInput :=
  { title :=
      match es.title with
      | .edited v => some (strOrNull v)
      | _ => none
    artistName :=
      match es.artistNames with
      | .edited l => some (if l.length > 0 then String.intercalate " / " l else "")
      | _ => none
    albumTitle :=
      match es.albumTitle with
      | .edited o => some (o.getD "")
      | _ => none
    albumArtist :=
      match es.albumArtist with
      | .edited o => some (o.getD "")
      | _ => none
    composer :=
      match es.composer with
      | .edited o => some (o.getD "")
      | _ => none
    genre :=
      match es.genre with
      | .edited o => some (o.getD "")
      | _ => none
    year :=
      match es.year with
      | .edited o => some (parseIntOrNull o)
      | _ => none
    bpm :=
      match es.bpm with
      | .edited o => some (parseIntOrNull o)
      | _ => none
    comment :=
      match es.comment with
      | .edited o => some (o.getD "")
      | _ => none
    commentLang :=
      match es.commentLang with
      | .edited o => some (o.getD "")
      | _ => none
    lyrics :=
      match es.lyrics with
      | .edited o => some (o.getD "")
      | _ => none
    lyricsLang :=
      match es.lyricsLang with
      | .edited o => some (o.getD "")
      | _ => none
    trackNumber :=
      match es.trackNumber with
      | .edited o => some (parseTrackDisc o).num
      | _ => none
    trackTotal :=
      match es.trackNumber with
      | .edited o => some (parseTrackDisc o).total
      | _ => none
    discNumber :=
      match es.discNumber with
      | .edited o => some (parseTrackDisc o).num
      | _ => none
    discTotal :=
      match es.discNumber with
      | .edited o => some (parseTrackDisc o).total
      | _ => none }

-- ── Panel state (TrackEditorPanel component state) ──

/-- An extra-tag entry (`frame_id` plus raw value), single-selection only. -/
structure ExtraTag where
  frame_id : String
  value : String
deriving DecidableEq, Repr

/-- The React component state of `TrackEditorPanel` that the commit logic
reads and writes: the loaded tracks, the live `EditState`, the two validation
error maps (modelled as association lists), the extra-tag list, and the
`saving` / `saved` flags. -/
structure PanelState where
  tracks : List TrackRow
  editState : Option EditState
  errors : List (String × String)
  extraTagErrors : List (String × String)
  extraTags : List ExtraTag
  saving : Bool
  saved : Bool
deriving DecidableEq, Repr

/-- The `hasAnyEdit` derived flag: some field of the edit state is `edited`
(`Object.values(editState).some(fs => fs.kind === "edited")`). -/
def anyEdited (es : EditState) : Bool :=
  editedB es.title || editedB es.artistNames || editedB es.albumTitle ||
  editedB es.albumArtist || editedB es.composer || editedB es.year ||
  editedB es.genre || editedB es.trackNumber || editedB es.discNumber ||
  editedB es.bpm || editedB es.comment || editedB es.commentLang ||
  editedB es.lyrics || editedB es.lyricsLang

/-- `hasAnyEdit` on the panel state (`false` when no edit state is loaded). -/
def hasAnyEdit (ps : PanelState) : Bool :=
  match ps.editState with
  | some es => anyEdited es
  | none => false

/-- The `hasValidationErrors` derived flag: either error map is non-empty. -/
def hasValidationErrors (ps : PanelState) : Bool :=
  !ps.errors.isEmpty || !ps.extraTagErrors.isEmpty

/-- The `disabled` expression of the Save button:
`!hasAnyEdit || saving || saved || hasValidationErrors`. A disabled button
never fires its click handler, so this is the commit-refusal predicate. -/
def saveDisabled (ps : PanelState) : Bool :=
  !hasAnyEdit ps || ps.saving || ps.saved || hasValidationErrors ps

/-- The field-error map recomputed by `validate()`: for each of `bpm`, `year`,
`trackNumber`, `discNumber`, an entry is recorded when the field is `edited`
with a truthy (non-null, non-empty) value that its validator rejects. -/
def validateFieldErrors (es : EditState) : List (String × String) :=
  (match es.bpm with
   | .edited (some v) =>
     if v ≠ "" then (validatorBpm v).toList.map (fun e => ("bpm", e)) else []
   | _ => []) ++
  (match es.year with
   | .edited (some v) =>
     if v ≠ "" then (validatorYear v).toList.map (fun e => ("year", e)) else []
   | _ => []) ++
  (match es.trackNumber with
   | .edited (some v) =>
     if v ≠ "" then (validatorTrackNumber v).toList.map (fun e => ("trackNumber", e)) else []
   | _ => []) ++
  (match es.discNumber with
   | .edited (some v) =>
     if v ≠ "" then (validatorDiscNumber v).toList.map (fun e => ("discNumber", e)) else []
   | _ => [])

/-- The extra-tag error map recomputed by `validate()`: every present tag with
a registered validator and truthy value contributes its validation error. -/
def validateExtraTagErrors (tags : List ExtraTag) : List (String × String) :=
  tags.filterMap (fun t =>
    match FIELD_VALIDATORS t.frame_id with
    | some validator =>
      if t.value ≠ "" then (validator t.value).map (fun e => (t.frame_id, e)) else none
    | none => none)

/-- The boolean result of `validate()`: both recomputed error maps are empty. -/
def validatePasses (ps : PanelState) : Bool :=
  match ps.editState with
  | some es => (validateFieldErrors es).isEmpty && (validateExtraTagErrors ps.extraTags).isEmpty
  | none => false

/-- Whether clicking Save dispatches a backend update call: the button must be
enabled (its `disabled` expression false), and `save()` itself returns early
when no edit state is loaded or `validate()` fails. -/
def clickSaveDispatches (ps : PanelState) : Bool :=
  !saveDisabled ps && ps.editState.isSome && validatePasses ps

/-- Mirrors `discard()`: a no-op when no edit state is loaded or no tracks are
present; otherwise rebuilds the edit state from the (original) loaded tracks
and clears both error maps. `extraTags`, `saving` and `saved` are untouched. -/
def discardPanel (ps : PanelState) : PanelState :=
  if ps.editState.isNone || ps.tracks.isEmpty then ps
  else
    { ps with
      editState := some (buildEditState ps.tracks)
      errors := []
      extraTagErrors := [] }

-- ── User interaction events on the panel (setField and error-map updates) ──

/-- The user interactions that mutate the edit state or the validation error
maps between load and discard: one `setField` variant per editable field
(each sets the field to `edited(value)` unconditionally), plus insertion and
deletion on the two error maps as performed by the input `onChange` handlers. -/
inductive PanelEvent where
  | setTitle (v : String)
  | setArtistNames (v : List String)
  | setAlbumTitle (v : Option String)
  | setAlbumArtist (v : Option String)
  | setComposer (v : Option String)
  | setYear (v : Option String)
  | setGenre (v : Option String)
  | setTrackNumber (v : Option String)
  | setDiscNumber (v : Option String)
  | setBpm (v : Option String)
  | setComment (v : Option String)
  | setCommentLang (v : Option String)
  | setLyrics (v : Option String)
  | setLyricsLang (v : Option String)
  | putError (key msg : String)
  | dropError (key : String)
  | putExtraTagError (key msg : String)
  | dropExtraTagError (key : String)
deriving DecidableEq, Repr

/-- Applies `setField`-style updates to the edit state inside the panel:
`setEditState(prev => prev ? { ...prev, [field]: edited(value) } : prev)`. -/
def setEditField (ps : PanelState) (f : EditState → EditState) : PanelState :=
  { ps with editState := ps.editState.map f }

/-- One interaction step on the panel state. -/
def applyPanelEvent (ps : PanelState) : PanelEvent → PanelState
  | .setTitle v => setEditField ps (fun es => { es with title := .edited v })
  | .setArtistNames v => setEditField ps (fun es => { es with artistNames := .edited v })
  | .setAlbumTitle v => setEditField ps (fun es => { es with albumTitle := .edited v })
  | .setAlbumArtist v => setEditField ps (fun es => { es with albumArtist := .edited v })
  | .setComposer v => setEditField ps (fun es => { es with composer := .edited v })
  | .setYear v => setEditField ps (fun es => { es with year := .edited v })
  | .setGenre v => setEditField ps (fun es => { es with genre := .edited v })
  | .setTrackNumber v => setEditField ps (fun es => { es with trackNumber := .edited v })
  | .setDiscNumber v => setEditField ps (fun es => { es with discNumber := .edited v })
  | .setBpm v => setEditField ps (fun es => { es with bpm := .edited v })
  | .setComment v => setEditField ps (fun es => { es with comment := .edited v })
  | .setCommentLang v => setEditField ps (fun es => { es with commentLang := .edited v })
  | .setLyrics v => setEditField ps (fun es => { es with lyrics := .edited v })
  | .setLyricsLang v => setEditField ps (fun es => { es with lyricsLang := .edited v })
  | .putError k msg => { ps with errors := (k, msg) :: ps.errors.filter (fun p => p.1 ≠ k) }
  | .dropError k => { ps with errors := ps.errors.filter (fun p => p.1 ≠ k) }
  | .putExtraTagError k msg =>
    { ps with extraTagErrors := (k, msg) :: ps.extraTagErrors.filter (fun p => p.1 ≠ k) }
  | .dropExtraTagError k => { ps with extraTagErrors := ps.extraTagErrors.filter (fun p => p.1 ≠ k) }

/-- Panel state right after a successful load of `tracks`: edit state freshly
reconciled, error maps empty, not saving, no saved acknowledgment. -/
def initialPanel (tracks : List TrackRow) (extraTags : List ExtraTag) : PanelState :=
  { tracks := tracks
    editState := some (buildEditState tracks)
    errors := []
    extraTagErrors := []
    extraTags := extraTags
    saving := false
    saved := false }

-- ── Commit outcome (the try block of save()) ──

/-- Outcome of the single-record `updateTrack` call: resolved ok with the
authoritative record, resolved with an error result, or rejected (thrown). -/
inductive UpdateOutcome where
  | ok (updated : TrackRow)
  | errorResult
  | rejected
deriving DecidableEq, Repr

/-- Effect of the single-selection branch of `save()` once the update call has
been dispatched and completed. On `ok` the tracks and edit state are replaced
by the authoritative record and `saved` is set. On an error result the
`res.status === "ok"` guard skips the state replacement, but control falls
through to `setSaved(true)` all the same. On rejection the exception escapes
the (catch-less) `try`, so only the `finally` (`setSaving(false)`) runs. -/
def saveSingleResult (ps : PanelState) (res : UpdateOutcome) : PanelState :=
  match res with
  | .ok t =>
    { ps with
      tracks := [t]
      editState := some (buildEditState [t])
      saved := true
      saving := false }
  | .errorResult => { ps with saved := true, saving := false }
  | .rejected => { ps with saving := false }

/-- Effect of the multi-selection branch of `save()`: `batchUpdateTracks` is
awaited but its result value is never inspected, so an error result behaves
exactly like success — the tracks are re-fetched (`reloaded`), the edit state
is rebuilt from them, and `saved` is set. Only a rejection skips that path. -/
def saveBatchResult (ps : PanelState) (batchRejected : Bool)
    (reloaded : List TrackRow) : PanelState :=
  if batchRejected then { ps with saving := false }
  else
    { ps with
      tracks := reloaded
      editState := some (buildEditState reloaded)
      saved := true
      saving := false }

-- ── Load effect of TrackEditorPanel (selection change and arrival) ──

/-- State touched by the load effect: the current selection, the loaded tracks
and edit state, the `loading` flag, and the set of in-flight loads. Each
in-flight load remembers the selection it was issued for and the track list it
will deliver on arrival. -/
structure LoaderState where
  selection : List Int
  tracks : List TrackRow
  editState : Option EditState
  loading : Bool
  pending : List (List Int × List TrackRow)
deriving DecidableEq, Repr

/-- Events of the load effect: `select` runs the effect body for a new
selection (set loading, clear the edit state, start a load that will deliver
`willDeliver`); `arrive i` runs the continuation of the `i`-th in-flight load.
The source has no generation counter and no cancelled flag, so the
continuation applies its result unconditionally. -/
inductive LoadEvent where
  | select (ids : List Int) (willDeliver : List TrackRow)
  | arrive (i : Nat)
deriving DecidableEq, Repr

/-- One step of the load-effect state machine. -/
def loadStep (s : LoaderState) : LoadEvent → LoaderState
  | .select ids tr =>
    { s with
      selection := ids
      loading := true
      editState := none
      pending := s.pending ++ [(ids, tr)] }
  | .arrive i =>
    match s.pending[i]? with
    | none => s
    | some p =>
      { s with
        tracks := p.2
        editState := some (buildEditState p.2)
        loading := false
        pending := s.pending.eraseIdx i }

/-- Runs a sequence of load events from a start state. -/
def runLoader (s : LoaderState) (events : List LoadEvent) : LoaderState :=
  events.foldl loadStep s

-- ── Deduplicating cover-art lookup cache (useCoverArt.ts) ──

/-- State of one dedup cache (`coverCache` plus `pending` plus observers):
the resolved map, the set of in-flight keys, the per-key waiters (callers
attached to an in-flight request), the log of issued fetches, and the log of
values delivered to callers. -/
structure CacheState where
  cache : List (Int × Option String)
  pendingKeys : List Int
  waiters : List (Nat × Int)
  fetches : List Int
  received : List (Nat × Option String)
deriving DecidableEq, Repr

/-- Lookup in the resolved map (`coverCache.get(key)` guarded by `has`). -/
def cacheLookup (m : List (Int × Option String)) (k : Int) : Option (Option String) :=
  (m.find? (fun p => p.1 == k)).map (fun p => p.2)

/-- Cache events: `get caller key` is one hook instance requesting `key`;
`resolve key v` is the arrival of the in-flight fetch for `key` with resolved
value `v` (`none` models the explicit not-found marker stored as `null`). -/
inductive CacheEvent where
  | get (caller : Nat) (key : Int)
  | resolve (key : Int) (v : Option String)
deriving DecidableEq, Repr

/-- One step of the dedup cache. A `get` returns the cached value immediately
when resolved; attaches to the in-flight request when one exists; otherwise
issues a single new fetch and registers it in-flight. A `resolve` stores the
result in the cache, removes the key from the in-flight set, and delivers the
value to every attached waiter; resolutions for keys that are not in flight
cannot occur and are no-ops. -/
def cacheStep (s : CacheState) : CacheEvent → CacheState
  | .get c k =>
    match cacheLookup s.cache k with
    | some v => { s with received := (c, v) :: s.received }
    | none =>
      if s.pendingKeys.contains k then
        { s with waiters := (c, k) :: s.waiters }
      else
        { s with
          pendingKeys := k :: s.pendingKeys
          fetches := k :: s.fetches
          waiters := (c, k) :: s.waiters }
  | .resolve k v =>
    if s.pendingKeys.contains k then
      { s with
        cache := (k, v) :: s.cache
        pendingKeys := s.pendingKeys.erase k
        waiters := s.waiters.filter (fun w => w.2 ≠ k)
        received := ((s.waiters.filter (fun w => w.2 = k)).map (fun w => (w.1, v))) ++ s.received }
    else s

/-- The cache at process start: everything empty. -/
def initCache : CacheState :=
  { cache := [], pendingKeys := [], waiters := [], fetches := [], received := [] }

/-- Runs a sequence of cache events from the initial state. -/
def runCache (events : List CacheEvent) : CacheState :=
  events.foldl cacheStep initCache

/-- Number of underlying fetches issued for a key so far. -/
def fetchCount (s : CacheState) (k : Int) : Nat :=
  s.fetches.count k

-- ── Sample data used by concrete instances and witnesses ──

/-- A representative loaded track (the shape of the test fixtures). -/
def sampleTrack : TrackRow :=
  { id := 1
    title := "My Song"
    artistName := some "Test Artist"
    albumTitle := some "Test Album"
    albumArtist := none
    composer := none
    year := some 2024
    genre := some "Rock"
    trackNumber := some 5
    trackTotal := some 12
    discNumber := some 1
    discTotal := none
    bpm := some 128
    comment := none
    commentLang := none
    lyrics := none
    lyricsLang := none }

/-- A second track with a different title (for divergence scenarios). -/
def trackA : TrackRow := { sampleTrack with id := 1, title := "Title A" }

/-- A third track with a different title (for divergence scenarios). -/
def trackB : TrackRow := { sampleTrack with id := 2, title := "Title B" }

/-- The freshly reconciled single-track edit state: every field uniform. -/
def esSampleUniform : EditState := buildEditState [sampleTrack]

/-- The sample edit state with only the title edited. -/
def esSampleTitleEdited : EditState := { esSampleUniform with title := .edited "New Title" }

-- ── Helper lemmas ──

/-- A decimal-digit character is exactly one between `'0'` and `'9'`. -/
theorem isDigit_iff (c : Char) : c.isDigit = true ↔ ('0' ≤ c ∧ c ≤ '9') := by
  simp [Char.isDigit, Char.le_def]

/-- `takeWhile` keeps a list all of whose elements satisfy the predicate. -/
theorem takeWhile_of_all {α : Type} (p : α → Bool) (l : List α)
    (h : ∀ c ∈ l, p c = true) : l.takeWhile p = l := by
  induction l with
  | nil => rfl
  | cons x xs ih =>
    simp only [List.takeWhile_cons, h x (List.mem_cons_self x xs)]
    exact congrArg (x :: ·) (ih (fun c hc => h c (List.mem_cons_of_mem x hc)))

/-- `dropWhile` drops a list all of whose elements satisfy the predicate. -/
theorem dropWhile_of_all {α : Type} (p : α → Bool) (l : List α)
    (h : ∀ c ∈ l, p c = true) : l.dropWhile p = [] := by
  induction l with
  | nil => rfl
  | cons x xs ih =>
    simp only [List.dropWhile_cons, h x (List.mem_cons_self x xs)]
    exact ih (fun c hc => h c (List.mem_cons_of_mem x hc))

/-- `takeWhile` over a satisfied prefix followed by a failing element. -/
theorem takeWhile_append_stop {α : Type} (p : α → Bool) (a : List α) (x : α) (b : List α)
    (ha : ∀ c ∈ a, p c = true) (hx : p x = false) :
    (a ++ x :: b).takeWhile p = a := by
  induction a with
  | nil => simp [List.takeWhile_cons, hx]
  | cons y ys ih =>
    simp only [List.cons_append, List.takeWhile_cons, ha y (List.mem_cons_self y ys)]
    exact congrArg (y :: ·) (ih (fun c hc => ha c (List.mem_cons_of_mem y hc)))

/-- `dropWhile` over a satisfied prefix followed by a failing element. -/
theorem dropWhile_append_stop {α : Type} (p : α → Bool) (a : List α) (x : α) (b : List α)
    (ha : ∀ c ∈ a, p c = true) (hx : p x = false) :
    (a ++ x :: b).dropWhile p = x :: b := by
  induction a with
  | nil => simp [List.dropWhile_cons, hx]
  | cons y ys ih =>
    simp only [List.cons_append, List.dropWhile_cons, ha y (List.mem_cons_self y ys)]
    exact ih (fun c hc => ha c (List.mem_cons_of_mem y hc))

-- ── Specification-side characterizations of the validators (claim C9) ──

/-- Specification predicate: every character is a decimal digit. -/
def specDigits (cs : List Char) : Prop := ∀ c ∈ cs, '0' ≤ c ∧ c ≤ '9'

/-- Specification predicate for the year validator: a 4-digit string whose
numeric value lies in the interval 1000 to 2099. -/
def specYear (v : String) : Prop :=
  v.data.length = 4 ∧ specDigits v.data ∧
    1000 ≤ natOfDigits v.data ∧ natOfDigits v.data ≤ 2099

/-- Specification predicate for positions: the string is `N` (digits) or
`N/Total` (digits, slash, digits). -/
def specPosition (v : String) : Prop :=
  (v.data ≠ [] ∧ specDigits v.data) ∨
  (∃ a b : List Char, v.data = a ++ '/' :: b ∧ a ≠ [] ∧ b ≠ [] ∧ specDigits a ∧ specDigits b)

/-- Specification predicate for language codes: exactly 3 lowercase letters. -/
def specLang (v : String) : Prop :=
  v.data.length = 3 ∧ ∀ c ∈ v.data, 'a' ≤ c ∧ c ≤ 'z'

/-- The digits-only regex accepts exactly non-empty all-digit strings. -/
theorem reDigits_iff (v : String) :
    reDigits v = true ↔ (v.data ≠ [] ∧ specDigits v.data) := by
  simp [reDigits, List.all_eq_true, specDigits, isDigit_iff, List.isEmpty_iff]

/-- The position regex accepts exactly `N` or `N/Total` digit shapes. -/
theorem reNumSlashNum_iff (v : String) :
    reNumSlashNum v = true ↔ specPosition v := by
  constructor
  · intro h
    simp only [reNumSlashNum, Bool.and_eq_true, Bool.or_eq_true] at h
    obtain ⟨hds, hrest⟩ := h
    have hsplit := List.takeWhile_append_dropWhile (p := fun c => c.isDigit) (l := v.data)
    rcases hrest with hrest | hrest
    · left
      rw [List.isEmpty_iff] at hrest
      constructor
      · intro hv
        rw [hv] at hds
        simp at hds
      · intro c hc
        have : c ∈ v.data.takeWhile (fun c => c.isDigit) := by
          rw [← hsplit, hrest, List.append_nil] at hc
          exact hc
        exact (isDigit_iff c).mp (List.mem_takeWhile_imp this)
    · right
      obtain ⟨⟨hhead, htail⟩, hall⟩ := hrest
      cases hr : v.data.dropWhile (fun c => c.isDigit) with
      | nil => rw [hr] at htail; simp at htail
      | cons r rt =>
        refine ⟨v.data.takeWhile (fun c => c.isDigit), rt, ?_, ?_, ?_, ?_, ?_⟩
        · rw [hr] at hhead
          simp only [List.headD_cons, beq_iff_eq] at hhead
          conv_lhs => rw [← hsplit]
          rw [hr, hhead]
        · intro hnil
          rw [hnil] at hds
          simp at hds
        · intro hnil
          rw [hr, hnil] at htail
          simp at htail
        · intro c hc
          exact (isDigit_iff c).mp (List.mem_takeWhile_imp hc)
        · intro c hc
          rw [hr] at hall
          simp only [List.tail_cons, List.all_eq_true] at hall
          exact (isDigit_iff c).mp (hall c hc)
  · intro h
    rcases h with ⟨hne, hdig⟩ | ⟨a, b, hv, ha, hb, hda, hdb⟩
    · have hd : ∀ c ∈ v.data, (fun c => c.isDigit) c = true :=
        fun c hc => (isDigit_iff c).mpr (hdig c hc)
      simp [reNumSlashNum, takeWhile_of_all _ _ hd, dropWhile_of_all _ _ hd,
        List.isEmpty_iff, hne]
    · have hda2 : ∀ c ∈ a, (fun c => c.isDigit) c = true :=
        fun c hc => (isDigit_iff c).mpr (hda c hc)
      have hslash : (fun c => c.isDigit) '/' = false := by decide
      simp only [reNumSlashNum, hv, takeWhile_append_stop _ a '/' b hda2 hslash,
        dropWhile_append_stop _ a '/' b hda2 hslash, Bool.and_eq_true, Bool.or_eq_true]
      refine ⟨by simpa [List.isEmpty_iff] using ha, Or.inr ⟨⟨by simp, ?_⟩, ?_⟩⟩
      · simpa [List.isEmpty_iff] using hb
      · simp only [List.tail_cons, List.all_eq_true]
        exact fun c hc => (isDigit_iff c).mpr (hdb c hc)

/-- Claim C9: the validator registry is a pure function per field key; `bpm`
accepts exactly non-negative integer (all-digit) strings, `year` accepts
exactly 4-digit strings with value in 1000 to 2099, `trackNumber` and
`discNumber` accept exactly `N` or `N/Total` digit shapes, and `commentLang`
and `lyricsLang` accept exactly 3 lowercase letters; in particular the six
documented scenarios hold. -/
theorem validators_characterization :
    (∀ v, validatorBpm v = none ↔ (v.data ≠ [] ∧ specDigits v.data))
    ∧ (∀ v, validatorYear v = none ↔ specYear v)
    ∧ (∀ v, validatorTrackNumber v = none ↔ specPosition v)
    ∧ (∀ v, validatorDiscNumber v = none ↔ specPosition v)
    ∧ (∀ v, validatorCommentLang v = none ↔ specLang v)
    ∧ (∀ v, validatorLyricsLang v = none ↔ specLang v)
    ∧ validatorBpm "abc" ≠ none ∧ validatorBpm "128" = none
    ∧ validatorYear "99" ≠ none ∧ validatorYear "2024" = none
    ∧ validatorTrackNumber "3/10" = none ∧ validatorTrackNumber "x" ≠ none := by
  refine ⟨?_, ?_, ?_, ?_, ?_, ?_, by decide, by decide, by decide, by decide,
    by decide, by decide⟩
  · intro v
    rw [validatorBpm, ← reDigits_iff]
    cases reDigits v <;> simp
  · intro v
    have hiff : ((v.data.length == 4 && v.data.all (fun c => c.isDigit)) &&
        (1000 ≤ natOfDigits v.data && natOfDigits v.data ≤ 2099)) = true ↔
        specYear v := by
      simp [List.all_eq_true, specDigits, specYear, isDigit_iff, and_assoc]
    rw [validatorYear]
    split
    next hc => simp [hiff.mp hc]
    next hc =>
      have hns : ¬ specYear v := fun h => hc (hiff.mpr h)
      simp [hns]
  · intro v
    rw [validatorTrackNumber, ← reNumSlashNum_iff]
    cases reNumSlashNum v <;> simp
  · intro v
    rw [validatorDiscNumber, ← reNumSlashNum_iff]
    cases reNumSlashNum v <;> simp
  · intro v
    rw [validatorCommentLang, specLang]
    have hiff : reLang3 v = true ↔
        (v.data.length = 3 ∧ ∀ c ∈ v.data, 'a' ≤ c ∧ c ≤ 'z') := by
      simp [reLang3, List.all_eq_true]
    rw [← hiff]
    cases reLang3 v <;> simp
  · intro v
    rw [validatorLyricsLang, specLang]
    have hiff : reLang3 v = true ↔
        (v.data.length = 3 ∧ ∀ c ∈ v.data, 'a' ≤ c ∧ c ≤ 'z') := by
      simp [reLang3, List.all_eq_true]
    rw [← hiff]
    cases reLang3 v <;> simp

/-- Claim C4 counterexample: the input `"x/3"` has an unparsable numerator
(`parseInt("x")` is `NaN`), yet the parser does not map it to null for both
components — the total is still parsed to 3 from the denominator. -/
theorem parseTrackDisc_unparsable_numerator_cex :
    jsParseInt "x" = none
    ∧ parseTrackDisc (some "x/3") = { num := none, total := some 3 }
    ∧ ¬((parseTrackDisc (some "x/3")).num = none
        ∧ (parseTrackDisc (some "x/3")).total = none) := by
  refine ⟨by decide, by decide, ?_⟩
  intro h
  exact absurd h.2 (by decide)

/-- Claim C4 (amended): `"5/12"` parses to number 5, total 12; `"5"` parses to
number 5, total null; an unparsable numerator yields a null number, while the
total is parsed independently of the numerator — null when the denominator is
absent (`"x"`), but still numeric when a parsable denominator is present
(`"x/3"` yields number null, total 3). -/
theorem parseTrackDisc_amended :
    parseTrackDisc (some "5/12") = { num := some 5, total := some 12 }
    ∧ parseTrackDisc (some "5") = { num := some 5, total := none }
    ∧ parseTrackDisc (some "x") = { num := none, total := none }
    ∧ parseTrackDisc (some "x/3") = { num := none, total := some 3 } := by
  refine ⟨by decide, by decide, by decide, by decide⟩

/-- Claim C10: the parser treats the digit string `"0"` as absent — `"0"` and
`"0/12"` parse to a null number and `"5/0"` parses to a null total — even
though the track/disc validator accepts `"0"` and `"0/12"` as valid input. -/
theorem parseTrackDisc_zero_absent :
    parseTrackDisc (some "0") = { num := none, total := none }
    ∧ parseTrackDisc (some "0/12") = { num := none, total := some 12 }
    ∧ parseTrackDisc (some "5/0") = { num := some 5, total := none }
    ∧ validatorTrackNumber "0" = none
    ∧ validatorTrackNumber "0/12" = none
    ∧ validatorDiscNumber "0" = none
    ∧ validatorDiscNumber "0/12" = none := by
  refine ⟨by decide, by decide, by decide, by decide, by decide, by decide, by decide⟩

/-- Claim C3: on a non-empty record list, `computeField` returns
`uniform(extract(records[0]))` when every projected value is `eq` to the
first, and otherwise `divergent` with exactly the projected values, one per
record, in input order. -/
theorem computeField_reconciles {R T : Type} [Inhabited T] (records : List R)
    (extract : R → T) (eq : T → T → Bool) (hne : records ≠ []) :
    ((∀ r ∈ records, eq (extract r) (extract (records.head hne)) = true) →
      computeField records extract eq = .uniform (extract (records.head hne)))
    ∧ ((¬ ∀ r ∈ records, eq (extract r) (extract (records.head hne)) = true) →
      computeField records extract eq = .divergent (records.map extract)
        ∧ (records.map extract).length = records.length) := by
  match records, hne with
  | r :: rs, _ =>
    have hiff : ((r :: rs).map extract).all
        (fun v => eq v (((r :: rs).map extract).headD default)) = true ↔
        (∀ x ∈ r :: rs, eq (extract x) (extract r) = true) := by
      simp only [List.map_cons, List.headD_cons, List.all_eq_true]
      constructor
      · intro h x hx
        exact h (extract x) (by rw [← List.map_cons]; exact List.mem_map_of_mem extract hx)
      · intro h v hv
        rw [← List.map_cons] at hv
        obtain ⟨x, hx, rfl⟩ := List.mem_map.mp hv
        exact h x hx
    constructor
    · intro h
      rw [computeField, if_pos (hiff.mpr (by simpa using h))]
      simp
    · intro h
      have hc : ¬ ((r :: rs).map extract).all
          (fun v => eq v (((r :: rs).map extract).headD default)) = true := by
        intro hall
        exact h (by simpa using hiff.mp hall)
      refine ⟨?_, by simp⟩
      rw [computeField, if_neg hc]

/-- Claim C3 witness: a uniform pair reconciles to `uniform`, a divergent
pair reconciles to `divergent` with both entries in order. -/
theorem computeField_reconciles_witness :
    computeField [5, 5] (fun n : Nat => n) (fun a b => a == b) = .uniform 5
    ∧ computeField [1, 2] (fun n : Nat => n) (fun a b => a == b) = .divergent [1, 2] := by
  constructor
  · exact (computeField_reconciles [5, 5] (fun n => n) (fun a b => a == b)
      (by decide)).1 (by decide)
  · exact ((computeField_reconciles [1, 2] (fun n => n) (fun a b => a == b)
      (by decide)).2 (by decide)).1

/-- Claim C2: the outbound patch contains a key exactly when the
corresponding field is `edited` (the two position fields each govern their
number and total keys); concretely, the all-uniform sample session yields the
empty patch and editing only the title yields a patch holding exactly the
title key. -/
theorem buildPatch_keys_iff_edited :
    (∀ es : EditState,
      ((buildPatch es).title.isSome = editedB es.title)
      ∧ ((buildPatch es).artistName.isSome = editedB es.artistNames)
      ∧ ((buildPatch es).albumTitle.isSome = editedB es.albumTitle)
      ∧ ((buildPatch es).albumArtist.isSome = editedB es.albumArtist)
      ∧ ((buildPatch es).composer.isSome = editedB es.composer)
      ∧ ((buildPatch es).genre.isSome = editedB es.genre)
      ∧ ((buildPatch es).year.isSome = editedB es.year)
      ∧ ((buildPatch es).bpm.isSome = editedB es.bpm)
      ∧ ((buildPatch es).comment.isSome = editedB es.comment)
      ∧ ((buildPatch es).commentLang.isSome = editedB es.commentLang)
      ∧ ((buildPatch es).lyrics.isSome = editedB es.lyrics)
      ∧ ((buildPatch es).lyricsLang.isSome = editedB es.lyricsLang)
      ∧ ((buildPatch es).trackNumber.isSome = editedB es.trackNumber)
      ∧ ((buildPatch es).trackTotal.isSome = editedB es.trackNumber)
      ∧ ((buildPatch es).discNumber.isSome = editedB es.discNumber)
      ∧ ((buildPatch es).discTotal.isSome = editedB es.discNumber))
    ∧ buildPatch esSampleUniform = {}
    ∧ buildPatch esSampleTitleEdited = { title := some (some "New Title") } := by
  refine ⟨?_, by decide, by decide⟩
  intro es
  obtain ⟨t, an, abt, aba, co, yr, ge, tn, dn, bp, cm, cl, ly, ll⟩ := es
  refine ⟨?_, ?_, ?_, ?_, ?_, ?_, ?_, ?_, ?_, ?_, ?_, ?_, ?_, ?_, ?_, ?_⟩
  · cases t <;> rfl
  · cases an <;> rfl
  · cases abt <;> rfl
  · cases aba <;> rfl
  · cases co <;> rfl
  · cases ge <;> rfl
  · cases yr <;> rfl
  · cases bp <;> rfl
  · cases cm <;> rfl
  · cases cl <;> rfl
  · cases ly <;> rfl
  · cases ll <;> rfl
  · cases tn <;> rfl
  · cases tn <;> rfl
  · cases dn <;> rfl
  · cases dn <;> rfl

/-- Claim C6: whenever no field is edited, a commit is in flight, the saved
acknowledgment is still showing, or a validation error is outstanding, the
Save button is disabled and no update call can be dispatched. -/
theorem commitRefusal_no_dispatch (ps : PanelState)
    (h : hasAnyEdit ps = false ∨ ps.saving = true ∨ ps.saved = true
      ∨ hasValidationErrors ps = true) :
    saveDisabled ps = true ∧ clickSaveDispatches ps = false := by
  have hd : saveDisabled ps = true := by
    rw [saveDisabled]
    rcases h with h | h | h | h <;> simp [h]
  refine ⟨hd, ?_⟩
  rw [clickSaveDispatches, hd]
  rfl

/-- Claim C6 witness: the freshly loaded sample session has no edits, so the
Save button is disabled and no update is dispatched. -/
theorem commitRefusal_no_dispatch_witness :
    saveDisabled (initialPanel [sampleTrack] []) = true
    ∧ clickSaveDispatches (initialPanel [sampleTrack] []) = false :=
  commitRefusal_no_dispatch (initialPanel [sampleTrack] []) (Or.inl (by decide))

-- ── Discard (claim C7) ──

/-- A freshly computed reconciliation is never `edited`. -/
theorem editedB_computeField {R T : Type} [Inhabited T] (records : List R)
    (extract : R → T) (eq : T → T → Bool) :
    editedB (computeField records extract eq) = false := by
  rw [computeField]
  split <;> rfl

/-- Panel events never change the loaded tracks. -/
theorem applyPanelEvent_tracks (ps : PanelState) (e : PanelEvent) :
    (applyPanelEvent ps e).tracks = ps.tracks := by
  cases e <;> rfl

/-- Panel events never change whether an edit state is loaded. -/
theorem applyPanelEvent_isSome (ps : PanelState) (e : PanelEvent) :
    (applyPanelEvent ps e).editState.isSome = ps.editState.isSome := by
  cases e <;> simp [applyPanelEvent, setEditField]

/-- A sequence of panel events never changes the loaded tracks. -/
theorem foldl_panel_tracks (events : List PanelEvent) :
    ∀ ps : PanelState, (events.foldl applyPanelEvent ps).tracks = ps.tracks := by
  induction events with
  | nil => intro ps; rfl
  | cons e es ih =>
    intro ps
    rw [List.foldl_cons, ih, applyPanelEvent_tracks]

/-- A sequence of panel events never unloads the edit state. -/
theorem foldl_panel_isSome (events : List PanelEvent) :
    ∀ ps : PanelState,
      (events.foldl applyPanelEvent ps).editState.isSome = ps.editState.isSome := by
  induction events with
  | nil => intro ps; rfl
  | cons e es ih =>
    intro ps
    rw [List.foldl_cons, ih, applyPanelEvent_isSome]

/-- Claim C7: after any sequence of edits and validation-error updates,
discard restores the edit state to exactly the reconciliation of the original
record set (in which no field is `edited`) and clears both error maps. -/
theorem discard_restores_baseline (tracks : List TrackRow) (tags : List ExtraTag)
    (events : List PanelEvent) (hne : tracks ≠ []) :
    (discardPanel (events.foldl applyPanelEvent (initialPanel tracks tags))).editState
      = some (buildEditState tracks)
    ∧ (discardPanel (events.foldl applyPanelEvent (initialPanel tracks tags))).errors = []
    ∧ (discardPanel (events.foldl applyPanelEvent (initialPanel tracks tags))).extraTagErrors = []
    ∧ anyEdited (buildEditState tracks) = false := by
  have htr : (events.foldl applyPanelEvent (initialPanel tracks tags)).tracks = tracks := by
    rw [foldl_panel_tracks]
    rfl
  have hsome : (events.foldl applyPanelEvent (initialPanel tracks tags)).editState.isSome
      = true := by
    rw [foldl_panel_isSome]
    rfl
  have hnone : (events.foldl applyPanelEvent (initialPanel tracks tags)).editState.isNone
      = false := by
    cases he : (events.foldl applyPanelEvent (initialPanel tracks tags)).editState
    · rw [he] at hsome
      simp at hsome
    · rfl
  have hemp : (events.foldl applyPanelEvent (initialPanel tracks tags)).tracks.isEmpty
      = false := by
    rw [htr]
    cases tracks with
    | nil => exact absurd rfl hne
    | cons t ts => rfl
  have hd : discardPanel (events.foldl applyPanelEvent (initialPanel tracks tags)) =
      { events.foldl applyPanelEvent (initialPanel tracks tags) with
        editState := some (buildEditState tracks)
        errors := []
        extraTagErrors := [] } := by
    rw [discardPanel, hnone, hemp, if_neg (by simp)]
    simp [htr]
  rw [hd]
  refine ⟨rfl, rfl, rfl, ?_⟩
  simp [anyEdited, buildEditState, editedB_computeField]

/-- Claim C7 witness: after editing the title and recording a validation
error, discard returns the sample session to its reconciled baseline. -/
theorem discard_restores_baseline_witness :
    (discardPanel ([PanelEvent.setTitle "Dirty", PanelEvent.putError "bpm" "msg"].foldl
        applyPanelEvent (initialPanel [trackA] []))).editState
      = some (buildEditState [trackA])
    ∧ (discardPanel ([PanelEvent.setTitle "Dirty", PanelEvent.putError "bpm" "msg"].foldl
        applyPanelEvent (initialPanel [trackA] []))).errors = []
    ∧ (discardPanel ([PanelEvent.setTitle "Dirty", PanelEvent.putError "bpm" "msg"].foldl
        applyPanelEvent (initialPanel [trackA] []))).extraTagErrors = []
    ∧ anyEdited (buildEditState [trackA]) = false :=
  discard_restores_baseline [trackA] [] [PanelEvent.setTitle "Dirty", PanelEvent.putError "bpm" "msg"]
    (by decide)

-- ── Dedup cache invariant (claim C8) ──

/-- The per-key invariant of the dedup cache: at most one fetch has ever been
issued for the key, and exactly one has been issued precisely when the key is
currently in flight or already resolved. -/
def cacheInv (s : CacheState) (k : Int) : Prop :=
  fetchCount s k ≤ 1 ∧
    ((k ∈ s.pendingKeys ∨ (cacheLookup s.cache k).isSome = true) ↔ fetchCount s k = 1)

/-- The invariant holds at process start. -/
theorem cacheInv_init (k : Int) : cacheInv initCache k := by
  constructor
  · simp [initCache, fetchCount]
  · simp [initCache, fetchCount, cacheLookup]

/-- Every cache event preserves the per-key invariant. -/
theorem cacheInv_step (s : CacheState) (k : Int) (e : CacheEvent)
    (h : cacheInv s k) : cacheInv (cacheStep s e) k := by
  obtain ⟨hle, hiff⟩ := h
  cases e with
  | get c k0 =>
    cases hl : cacheLookup s.cache k0 with
    | some v =>
      simp only [cacheStep, hl]
      exact ⟨hle, hiff⟩
    | none =>
      simp only [cacheStep, hl]
      by_cases hp : s.pendingKeys.contains k0 = true
      · rw [if_pos hp]
        exact ⟨hle, hiff⟩
      · rw [if_neg hp]
        by_cases hk : k = k0
        · subst hk
          have hnotin : ¬ (k ∈ s.pendingKeys ∨ (cacheLookup s.cache k).isSome = true) := by
            rintro (hm | hs)
            · exact hp (by simpa using List.elem_iff.mpr hm)
            · rw [hl] at hs
              simp at hs
          have h0 : fetchCount s k = 0 := by
            have hne1 : fetchCount s k ≠ 1 := fun h1 => hnotin (hiff.mpr h1)
            omega
          constructor
          · simp only [fetchCount, List.count_cons, beq_self_eq_true, if_pos]
            simp only [fetchCount] at h0
            omega
          · constructor
            · intro _
              simp only [fetchCount, List.count_cons, beq_self_eq_true, if_pos]
              simp only [fetchCount] at h0
              omega
            · intro _
              exact Or.inl (List.mem_cons_self k s.pendingKeys)
        · have hcnt : fetchCount { s with
              pendingKeys := k0 :: s.pendingKeys
              fetches := k0 :: s.fetches
              waiters := (c, k0) :: s.waiters } k = fetchCount s k := by
            have hne2 : ¬ k0 = k := fun h0 => hk h0.symm
            simp [fetchCount, List.count_cons, hk, hne2]
          refine ⟨by rw [hcnt]; exact hle, ?_⟩
          rw [hcnt]
          constructor
          · rintro (hm | hs)
            · rcases List.mem_cons.mp hm with h0 | hm2
              · exact absurd h0 hk
              · exact hiff.mp (Or.inl hm2)
            · exact hiff.mp (Or.inr hs)
          · intro h1
            rcases hiff.mpr h1 with hm | hs
            · exact Or.inl (List.mem_cons_of_mem k0 hm)
            · exact Or.inr hs
  | resolve k0 v =>
    by_cases hp : s.pendingKeys.contains k0 = true
    · simp only [cacheStep, if_pos hp]
      by_cases hk : k = k0
      · subst hk
        have h1 : fetchCount s k = 1 :=
          hiff.mp (Or.inl (by simpa using List.elem_iff.mp (by simpa using hp)))
        refine ⟨hle, ?_⟩
        constructor
        · intro _
          exact h1
        · intro _
          refine Or.inr ?_
          simp [cacheLookup]
      · refine ⟨hle, ?_⟩
        have hlk : cacheLookup ((k0, v) :: s.cache) k = cacheLookup s.cache k := by
          simp only [cacheLookup, List.find?]
          have : ((k0, v).1 == k) = false := by
            simp only []
            simpa using fun h0 => hk h0.symm
          rw [this]
        have hme : k ∈ s.pendingKeys.erase k0 ↔ k ∈ s.pendingKeys :=
          List.mem_erase_of_ne hk
        rw [hlk]
        constructor
        · rintro (hm | hs)
          · exact hiff.mp (Or.inl (hme.mp hm))
          · exact hiff.mp (Or.inr hs)
        · intro h1
          rcases hiff.mpr h1 with hm | hs
          · exact Or.inl (hme.mpr hm)
          · exact Or.inr hs
    · simp only [cacheStep, if_neg hp]
      exact ⟨hle, hiff⟩

/-- A run of cache events preserves the per-key invariant. -/
theorem cacheInv_run (k : Int) (events : List CacheEvent) :
    ∀ s : CacheState, cacheInv s k → cacheInv (events.foldl cacheStep s) k := by
  induction events with
  | nil => intro s h; exact h
  | cons e es ih =>
    intro s h
    exact ih _ (cacheInv_step s k e h)

/-- Claim C8: over any event sequence the cache performs at most one
underlying fetch per key; concretely, two gets for the same key before
resolution trigger exactly one fetch and both callers receive the resolved
value, and a get after resolution receives the same value with no further
fetch. -/
theorem coverArtCache_dedup :
    (∀ (events : List CacheEvent) (k : Int), fetchCount (runCache events) k ≤ 1)
    ∧ fetchCount (runCache [CacheEvent.get 0 7, CacheEvent.get 1 7]) 7 = 1
    ∧ (runCache [CacheEvent.get 0 7, CacheEvent.get 1 7,
        CacheEvent.resolve 7 (some "art")]).received
        = [(1, some "art"), (0, some "art")]
    ∧ fetchCount (runCache [CacheEvent.get 0 7, CacheEvent.get 1 7,
        CacheEvent.resolve 7 (some "art")]) 7 = 1
    ∧ (runCache [CacheEvent.get 0 7, CacheEvent.get 1 7,
        CacheEvent.resolve 7 (some "art"), CacheEvent.get 2 7]).received
        = [(2, some "art"), (1, some "art"), (0, some "art")]
    ∧ fetchCount (runCache [CacheEvent.get 0 7, CacheEvent.get 1 7,
        CacheEvent.resolve 7 (some "art"), CacheEvent.get 2 7]) 7 = 1 := by
  refine ⟨?_, by decide, by decide, by decide, by decide, by decide⟩
  intro events k
  exact (cacheInv_run k events initCache (cacheInv_init k)).1

-- ── Stale loads (claim C5) ──

/-- The loader before any selection has been made. -/
def initLoader : LoaderState :=
  { selection := [], tracks := [], editState := none, loading := true, pending := [] }

/-- A loader showing selection with id 2 while a stale load for id 1 is still
in flight. -/
def loaderWithStalePending : LoaderState :=
  { selection := [2]
    tracks := [trackB]
    editState := some (buildEditState [trackB])
    loading := false
    pending := [([1], [trackA])] }

/-- Claim C5 counterexample: selecting id 1 (delivering track A), then id 2
(delivering track B), with the newer load arriving first and the stale load
arriving second, leaves the panel showing selection 2 but track A's records
and edit session — the stale load overwrote the newer selection's state. -/
theorem staleLoad_overwrites_cex :
    (runLoader initLoader [LoadEvent.select [1] [trackA], LoadEvent.select [2] [trackB],
        LoadEvent.arrive 1, LoadEvent.arrive 0]).selection = [2]
    ∧ (runLoader initLoader [LoadEvent.select [1] [trackA], LoadEvent.select [2] [trackB],
        LoadEvent.arrive 1, LoadEvent.arrive 0]).tracks = [trackA]
    ∧ (runLoader initLoader [LoadEvent.select [1] [trackA], LoadEvent.select [2] [trackB],
        LoadEvent.arrive 1, LoadEvent.arrive 0]).editState = some (buildEditState [trackA])
    ∧ [trackA] ≠ [trackB]
    ∧ buildEditState [trackA] ≠ buildEditState [trackB] := by
  refine ⟨by decide, by decide, by decide, by decide, by decide⟩

/-- Claim C5 (amended): the load effect has no generation check or cancelled
flag; an in-flight load's result is applied unconditionally when it arrives,
overwriting the tracks and edit session even when the current selection has
changed since the load was issued (the displayed session is that of whichever
load's continuation ran last). -/
theorem loadArrive_unconditional (s : LoaderState) (i : Nat)
    (p : List Int × List TrackRow) (h : s.pending[i]? = some p) :
    (loadStep s (LoadEvent.arrive i)).tracks = p.2
    ∧ (loadStep s (LoadEvent.arrive i)).editState = some (buildEditState p.2)
    ∧ (loadStep s (LoadEvent.arrive i)).selection = s.selection := by
  simp [loadStep, h]

/-- Claim C5 amended-claim witness: the stale pending load for id 1 is applied
on arrival even though the selection is id 2. -/
theorem loadArrive_unconditional_witness :
    (loadStep loaderWithStalePending (LoadEvent.arrive 0)).tracks = ([1], [trackA]).2
    ∧ (loadStep loaderWithStalePending (LoadEvent.arrive 0)).editState
        = some (buildEditState ([1], [trackA]).2)
    ∧ (loadStep loaderWithStalePending (LoadEvent.arrive 0)).selection
        = loaderWithStalePending.selection :=
  loadArrive_unconditional loaderWithStalePending 0 ([1], [trackA]) (by decide)

-- ── Commit failure (claim C1) ──

/-- The single-track pre-commit panel: sample session with an edited title,
mid-save. -/
def psPreCommit : PanelState :=
  { applyPanelEvent (initialPanel [sampleTrack] []) (PanelEvent.setTitle "New Title") with
    saving := true }

/-- The two-track pre-commit panel with an edited title (batch path). -/
def psPreCommitBatch : PanelState :=
  { applyPanelEvent (initialPanel [trackA, trackB] []) (PanelEvent.setTitle "New Title") with
    saving := true }

/-- Claim C1 (code bug): when the single-track update resolves with an error
result, the edit state is retained but `saved` is still set to true (the
acknowledgment is shown for a failed commit); only a rejection leaves `saved`
false. In the batch path an error result is ignored outright: `saved` is set
and the edit session is rebuilt from the re-fetched pre-commit records, so
the edits are lost as well. -/
theorem saveFailure_sets_saved_bug :
    (saveSingleResult psPreCommit UpdateOutcome.errorResult).editState = psPreCommit.editState
    ∧ (saveSingleResult psPreCommit UpdateOutcome.errorResult).saved = true
    ∧ (saveSingleResult psPreCommit UpdateOutcome.rejected).editState = psPreCommit.editState
    ∧ (saveSingleResult psPreCommit UpdateOutcome.rejected).saved = false
    ∧ (saveBatchResult psPreCommitBatch false [trackA, trackB]).saved = true
    ∧ (saveBatchResult psPreCommitBatch false [trackA, trackB]).editState
        = some (buildEditState [trackA, trackB])
    ∧ (saveBatchResult psPreCommitBatch false [trackA, trackB]).editState
        ≠ psPreCommitBatch.editState := by
  refine ⟨rfl, rfl, rfl, by decide, rfl, rfl, by decide⟩
